import Mathlib

/-!
Verification of the PySearchTool repository: a shallow embedding in Lean 4 of
the search engine (`src/core.py`), the file utilities (`src/utils.py`) and the
replacement worker (`src/ui.py`, `ReplacementWorker`), together with theorems
settling the specification claims.

Modelling conventions:
* Python strings are Lean `String`s; byte contents are `List Nat`.
* The filesystem is a partial map `String → Option String` (name to content).
* UTF-8 decoding with `errors="replace"` never fails, so decoded text is
  modelled directly (a `FileData` carries both its raw bytes, used by the
  binary check, and its decoded `readlines()` result).
* User-supplied regular expressions (the `useRegex` path) are opaque: a
  compiled regex is a record of a `search` predicate and a `sub` function, and
  compilation is a parameter that may fail, mirroring `re.compile` raising
  `re.error`.  The literal and whole-word paths - which the code builds itself
  from `re.escape` - are modelled concretely.
* Thread-pool completion order is an arbitrary list order: theorems about the
  execution phase quantify over the list of per-task results.
-/

namespace PySearch

/-! ### String helpers (Python semantics) -/

/-- Lower-case a character list (model of Python lower-casing under
`re.IGNORECASE` for the character sets exercised here). -/
def lowerL (l : List Char) : List Char := l.map Char.toLower

/-- `occursIn pat s`: `pat` occurs as a contiguous sublist of `s`
(substring search, the semantics of the escaped-literal regex `search`). -/
def occursIn (pat : List Char) : List Char → Bool
  | [] => pat.isEmpty
  | c :: cs => pat.isPrefixOf (c :: cs) || occursIn pat cs

/-- Python `\w` (ASCII view): letters, digits, underscore. -/
def isWordChar (c : Char) : Bool := c.isAlphanum || c == '_'

/-- Word-ness of an optional character; `none` (string edge) is non-word. -/
def optWord : Option Char → Bool
  | none => false
  | some c => isWordChar c

/-- A whole-word (`\b pat \b`) occurrence of `pat` starting exactly at the
head of `s`, where `prev` is the character just before `s` (from the
enclosing line).  `canon` is the character canonicalisation (identity when
case-sensitive, `Char.toLower` under `re.IGNORECASE`); `pat` is already
canonicalised.  A `\b` holds where word-ness flips. -/
def wwHere (canon : Char → Char) (pat : List Char) (prev : Option Char)
    (s : List Char) : Bool :=
  pat.isPrefixOf (s.map canon) &&
  (optWord prev != optWord ((pat ++ (s.map canon).drop pat.length).head?)) &&
  (optWord ((pat.getLast?).or prev) != optWord ((s.map canon).drop pat.length).head?)

/-- Scan `s` for a whole-word occurrence of `pat` (model of
`re.search` on `\b re.escape(pat) \b`). -/
def wwSearchAux (canon : Char → Char) (pat : List Char) :
    Option Char → List Char → Bool
  | prev, [] => wwHere canon pat prev []
  | prev, c :: cs => wwHere canon pat prev (c :: cs) || wwSearchAux canon pat (some c) cs

/-- Whole-word search on strings: `cs` is the `caseSensitive` flag. -/
def wholeWordSearch (pat : String) (cs : Bool) (line : String) : Bool :=
  if cs then wwSearchAux id pat.data none line.data
  else wwSearchAux Char.toLower (lowerL pat.data) none line.data

/-- Literal (escaped) search honouring the `caseSensitive` flag:
substring occurrence, case-folded when insensitive. -/
def literalSearch (pat : String) (cs : Bool) (line : String) : Bool :=
  if cs then occursIn pat.data line.data
  else occursIn (lowerL pat.data) (lowerL line.data)

/-- Python `str.replace` for a non-empty needle: leftmost, non-overlapping.
The first argument counts characters of a committed occurrence still to be
consumed (0 while scanning); the recursion is structural on the text. -/
def replAux (term repl : List Char) : Nat → List Char → List Char
  | _, [] => []
  | k + 1, _ :: cs => replAux term repl k cs
  | 0, c :: cs =>
    if term.isPrefixOf (c :: cs) ∧ term ≠ [] then
      repl ++ replAux term repl (term.length - 1) cs
    else c :: replAux term repl 0 cs

/-- Python `str.replace` for the empty needle: the replacement is inserted
before every character and at the end. -/
def interspRepl (repl : List Char) : List Char → List Char
  | [] => repl
  | c :: cs => repl ++ c :: interspRepl repl cs

/-- Python `str.replace(term, repl)` (all occurrences). -/
def pyReplace (s term repl : String) : String :=
  if term.data = [] then ⟨interspRepl repl.data s.data⟩
  else ⟨replAux term.data repl.data 0 s.data⟩

/-- Case-insensitive literal substitution: model of
`re.sub(re.escape(term), repl, s, flags=re.IGNORECASE)` (leftmost,
non-overlapping; `term` is pre-lower-cased by the wrapper).  The `Nat`
counts remaining characters of a committed occurrence, as in `replAux`. -/
def ciReplAux (term repl : List Char) : Nat → List Char → List Char
  | _, [] => []
  | k + 1, _ :: cs => ciReplAux term repl k cs
  | 0, c :: cs =>
    if term.isPrefixOf (lowerL (c :: cs)) ∧ term ≠ [] then
      repl ++ ciReplAux term repl (term.length - 1) cs
    else c :: ciReplAux term repl 0 cs

/-- `re.sub(re.escape(term), repl, s, flags=re.IGNORECASE)`. -/
def ciReplace (s term repl : String) : String :=
  if term.data = [] then ⟨interspRepl repl.data s.data⟩
  else ⟨ciReplAux (lowerL term.data) repl.data 0 s.data⟩

/-- Whole-word substitution: model of `re.sub` on `\b re.escape(term) \b`
(leftmost, non-overlapping); `pat` is pre-canonicalised.  While the `Nat`
skip counter is positive, a committed occurrence is being consumed; when
it reaches zero after a match, `prev` holds the occurrence's last
character. -/
def wwSubAux (canon : Char → Char) (pat repl : List Char) :
    Nat → Option Char → List Char → List Char
  | _, _, [] => []
  | k + 1, prev, _ :: cs => wwSubAux canon pat repl k prev cs
  | 0, prev, c :: cs =>
    if wwHere canon pat prev (c :: cs) ∧ pat ≠ [] then
      repl ++ wwSubAux canon pat repl (pat.length - 1) pat.getLast? cs
    else c :: wwSubAux canon pat repl 0 (some c) cs

/-- Whole-word substitution on strings (`cs` = `caseSensitive`). -/
def wholeWordSub (pat : String) (cs : Bool) (repl s : String) : String :=
  if cs then ⟨wwSubAux id pat.data repl.data 0 none s.data⟩
  else ⟨wwSubAux Char.toLower (lowerL pat.data) repl.data 0 none s.data⟩

/-- `str.startswith` (list-level, so that proofs can evaluate it). -/
def strStartsWith (s p : String) : Bool := p.data.isPrefixOf s.data

/-- `str.endswith` (list-level, so that proofs can evaluate it). -/
def strEndsWith (s p : String) : Bool := p.data.reverse.isPrefixOf s.data.reverse

/-- Python `str.strip()`: drop whitespace at both ends. -/
def pyStrip (s : String) : String :=
  ⟨((s.data.dropWhile Char.isWhitespace).reverse.dropWhile Char.isWhitespace).reverse⟩

/-- `line.strip()[:200]` - the preview text of a match (`core.py` line 109). -/
def previewOf (line : String) : String := ⟨(pyStrip line).data.take 200⟩

/-- Accumulator pass for `splitlines`: `acc` holds the current line
reversed; a trailing segment is emitted only if non-empty (Python drops
nothing but also emits no empty final line after a terminator). -/
def splitlinesAux : List Char → List Char → List String
  | acc, [] => if acc.isEmpty then [] else [⟨acc.reverse⟩]
  | acc, '\n' :: cs => ⟨acc.reverse⟩ :: splitlinesAux [] cs
  | acc, c :: cs => splitlinesAux (c :: acc) cs

/-- Python `str.splitlines()` restricted to `\n` terminators (the only
terminator appearing in modelled contents). -/
def pySplitlines (s : String) : List String := splitlinesAux [] s.data

/-! ### Pattern matcher (`SearchEngine.__init__`, `core.py` lines 54-65) -/

/-- An opaque compiled user regular expression (the `useRegex` path):
`test` models `rx.search(line) is not None`, `sub` models
`rx.sub(repl, text)`. -/
structure PyRegex where
  test : String → Bool
  sub : String → String → String

/-- A regex compiler: `compile pattern ignorecase` models
`re.compile(pattern, flags)`, failing with the syntax-error message. -/
def RegexCompiler := String → Bool → Except String PyRegex

/-- The compiled matcher held in `self.regex`: the three branches of
`SearchEngine.__init__` (user regex / whole-word escaped literal /
escaped literal).  The escaped-literal forms are concrete. -/
inductive Matcher where
  | rx (r : PyRegex)
  | whole (pat : String) (cs : Bool)
  | literal (pat : String) (cs : Bool)

/-- `self.regex.search(line)` as a Boolean. -/
def matcherSearch : Matcher → String → Bool
  | .rx r, line => r.test line
  | .whole pat cs, line => wholeWordSearch pat cs line
  | .literal pat cs, line => literalSearch pat cs line

/-! ### Search options and engine construction -/

/-- The `opts` dict of `SearchEngine` (`case_sensitive` models the `"case"`
key - `case` is reserved in Lean).  `max_matches` carries the
`opts.get("max_matches", DEFAULT_MAX_MATCHES)` default. -/
structure Opts where
  text : String
  case_sensitive : Bool
  regex : Bool
  whole_word : Bool
  include_hidden : Bool
  search_archives : Bool
  use_default_ignores : Bool
  max_matches : Nat
deriving DecidableEq

def DEFAULT_MAX_MATCHES : Nat := 5000

def MAX_FILE_SIZE_MB : Nat := 10

/-- The engine after construction (root path and stop event live outside). -/
structure SearchEngine where
  opts : Opts
  includeGlobs : List String
  excludeGlobs : List String
  matcher : Matcher

/-- `SearchEngine.__init__`: compile the pattern; a `re.error` from the
user-regex branch becomes `ValueError(f"Invalid regex: {e}")`, raised
synchronously before anything else happens. -/
def mkEngine (opts : Opts) (inc exc : List String) (compileR : RegexCompiler) :
    Except String SearchEngine :=
  if opts.regex then
    match compileR opts.text (!opts.case_sensitive) with
    | .error e => .error ("Invalid regex: " ++ e)
    | .ok r => .ok ⟨opts, inc, exc, .rx r⟩
  else if opts.whole_word then .ok ⟨opts, inc, exc, .whole opts.text opts.case_sensitive⟩
  else .ok ⟨opts, inc, exc, .literal opts.text opts.case_sensitive⟩

/-! ### Glob filtering (`SearchEngine._matches_globs`, `core.py` 67-72) -/

/-- `fnmatch.fnmatch` on `*` / `?` / literal characters (bracket classes are
not used by any modelled pattern). -/
def globMatch : List Char → List Char → Bool
  | [], [] => true
  | [], _ :: _ => false
  | '*' :: ps, [] => globMatch ps []
  | '*' :: ps, c :: cs => globMatch ps (c :: cs) || globMatch ('*' :: ps) cs
  | '?' :: ps, _ :: cs => globMatch ps cs
  | p :: ps, c :: cs => p == c && globMatch ps cs
  | _ :: _, [] => false
termination_by p s => p.length + s.length

/-- `_matches_globs`: pass if no include pattern set or some include matches,
and no exclude matches. -/
def matchesGlobs (inc exc : List String) (name : String) : Bool :=
  (inc.isEmpty || inc.any fun p => globMatch p.data name.data) &&
  !(exc.any fun p => globMatch p.data name.data)

/-! ### Files, archives and the binary check -/

/-- A plain file as the code observes it: `size` is `stat().st_size`,
`readable` whether opening succeeds, `bytes` the raw bytes (read by the
binary check), `lines` the decoded `readlines()` result (UTF-8 with
`errors="replace"`, which never fails). -/
structure FileData where
  size : Nat
  readable : Bool
  bytes : List Nat
  lines : List String
deriving DecidableEq

/-- One zip entry: `content` is its decoded text. -/
structure ZEntry where
  filename : String
  is_dir : Bool
  content : String
deriving DecidableEq

/-- A zip archive's listing. -/
structure ZipFile where
  entries : List ZEntry
deriving DecidableEq

/-- A directory entry of the (flat) scanned tree: the file's raw view plus
its zip parse when `zipfile.ZipFile` opens it (`none` models the open
raising, which the code swallows). -/
structure Entry where
  name : String
  data : FileData
  zip : Option ZipFile

/-- `is_binary_file` (`utils.py` 10-16): NUL byte in the first 1024 bytes;
unreadable files are conservatively binary. -/
def is_binary_file (fd : FileData) : Bool :=
  if fd.readable then (fd.bytes.take 1024).contains 0 else true

/-! ### Content search (`SearchEngine._search_content`, `core.py` 74-113) -/

/-- The `Match` dataclass (`core.py` 21-27). -/
structure Match where
  path : String
  line_no : Nat
  preview : String
  is_archive : Bool
  member : Option String
deriving DecidableEq

/-- The per-line matching loop (`core.py` 104-110): 1-based line numbers,
stripped 200-character preview.  The stop event is modelled as a constant
flag for the duration of the call (it is polled at every line). -/
def searchLines (mt : Matcher) (path : String) (is_arc : Bool)
    (member : Option String) (stop : Bool) (lines : List String) : List Match :=
  if stop then []
  else lines.enum.filterMap fun p =>
    if matcherSearch mt p.2 then
      some ⟨path, p.1 + 1, previewOf p.2, is_arc, member⟩
    else none

/-- `_search_content` for a plain file: skip oversized files, skip binary
files, else scan the decoded lines.  The surrounding `try` means a failed
`stat`/`open` also yields `[]`; that path is absorbed by
`is_binary_file`'s unreadable case. -/
def searchContentPlain (mt : Matcher) (path : String) (fd : FileData)
    (stop : Bool) : List Match :=
  if fd.size > MAX_FILE_SIZE_MB * 1024 * 1024 then []
  else if is_binary_file fd then []
  else searchLines mt path false none stop fd.lines

/-- `_search_content` for an archive member: only `.zip` members are ever
enumerated as candidates by the scan phase, so the tar branch is never
reached with an enumerated candidate; any failure to open the archive or
find the member yields `[]` via the swallowing `except`. -/
def searchContentArchive (mt : Matcher) (path : String) (zip : Option ZipFile)
    (member : String) (stop : Bool) : List Match :=
  let lines :=
    if strEndsWith path ".zip" then
      match zip with
      | some z =>
        match z.entries.find? (fun en => en.filename == member) with
        | some en => pySplitlines en.content
        | none => []
      | none => []
    else []
  searchLines mt path true (some member) stop lines

/-! ### Scan phase (`SearchEngine.run`, `core.py` 119-170)

The walk is modelled over one flat directory (a list of entries); the
directory-pruning rules act on subdirectory names and are vacuous here. -/

/-- A unit of content to scan (the `(path, is_archive, member)` triples
appended to `candidates`). -/
structure Candidate where
  path : String
  is_archive : Bool
  member : Option String
deriving DecidableEq

/-- The candidates one directory entry contributes (`core.py` 145-167):
hidden-name filter, glob filter, the plain-file candidate, then - when
`search_archives` and the name has an archive suffix - the zip listing
(non-directory entries passing the globs).  Tar archives are never
pre-listed (the scan phase only expands `.zip`); a failing zip open
(`zip = none`) is swallowed and contributes no member candidates. -/
def entryCandidates (eng : SearchEngine) (e : Entry) : List Candidate :=
  if !eng.opts.include_hidden && strStartsWith e.name "." then []
  else if !matchesGlobs eng.includeGlobs eng.excludeGlobs e.name then []
  else
    ⟨e.name, false, none⟩ ::
    (if eng.opts.search_archives &&
        (strEndsWith e.name ".zip" || strEndsWith e.name ".tar.gz" || strEndsWith e.name ".tgz") then
      if strEndsWith e.name ".zip" then
        match e.zip with
        | some z =>
          (z.entries.filter fun en =>
              !en.is_dir && matchesGlobs eng.includeGlobs eng.excludeGlobs en.filename).map
            fun en => ⟨e.name, true, some en.filename⟩
        | none => []
      else []
    else [])

/-- The full candidate list of the scan phase over a flat directory. -/
def buildCandidates (eng : SearchEngine) (files : List Entry) : List Candidate :=
  (files.map (entryCandidates eng)).flatten

/-- Dispatch of `_search_content` on one candidate: the entry is looked up
by name (a vanished file raises inside the worker and yields `[]`). -/
def candidateSearch (eng : SearchEngine) (files : List Entry) (stop : Bool)
    (c : Candidate) : List Match :=
  match files.find? (fun e => e.name == c.path) with
  | none => []
  | some e =>
    if c.is_archive then
      match c.member with
      | some m => searchContentArchive eng.matcher c.path e.zip m stop
      | none => []
    else searchContentPlain eng.matcher c.path e.data stop

/-! ### Execution phase (`SearchEngine.run`, `core.py` 172-207) -/

/-- `SearchStats` (the `start_time` float is outside the model). -/
structure Stats where
  scanned_files : Nat
  total_candidates : Nat
  matches_found : Nat
deriving DecidableEq

/-- The events put on `out_q`. -/
inductive SEvent where
  | progress (st : Stats)
  | warn (msg : String)
  | mtch (m : Match)
  | done (st : Stats)
deriving DecidableEq

/-- The warning text of `core.py` 185-190. -/
def warnMsg (maxm : Nat) : String :=
  "Max matches (" ++ toString maxm ++ ") reached. Search stopped."

/-- State of the completion loop: the counters, the stop flag (set only by
the ceiling branch within this loop) and the events emitted so far. -/
structure ExecSt where
  found : Nat
  scanned : Nat
  total : Nat
  stopped : Bool
  events : List SEvent
deriving DecidableEq

/-- One iteration of the `as_completed` loop (`core.py` 181-205), fed one
completed task's result (a failed task behaves as `[]`): once stopped,
remaining completions are not consumed (`break`). -/
def execStep (maxm : Nat) (s : ExecSt) (res : List Match) : ExecSt :=
  if s.stopped then s
  else if maxm ≤ s.found then
    { s with stopped := true, events := s.events ++ [.warn (warnMsg maxm)] }
  else
    let s1 := { s with scanned := s.scanned + 1 }
    let s2 :=
      if s1.scanned % 50 == 0 then
        { s1 with events := s1.events ++ [.progress ⟨s1.scanned, s1.total, s1.found⟩] }
      else s1
    if res.isEmpty then s2
    else { s2 with
      found := s2.found + res.length,
      events := s2.events ++ res.map .mtch }

/-- State at the start of the execution phase: the scan phase has emitted
one progress event carrying `total_candidates` (`core.py` 169-170). -/
def initExecSt (total : Nat) : ExecSt :=
  ⟨0, 0, total, false, [.progress ⟨0, total, 0⟩]⟩

/-- The execution phase over the task results in completion order, followed
by the terminal `done` event. -/
def execPhase (maxm total : Nat) (results : List (List Match)) : ExecSt :=
  let s := results.foldl (execStep maxm) (initExecSt total)
  { s with events := s.events ++ [.done ⟨s.scanned, s.total, s.found⟩] }

/-- All intermediate states of the completion loop (head = entry state). -/
def execStates (maxm : Nat) : ExecSt → List (List Match) → List ExecSt
  | s, [] => [s]
  | s, r :: rs => s :: execStates maxm (execStep maxm s r) rs

/-- `SearchEngine.run` over a flat directory, with task completion order
taken as submission order (theorems that depend on completion order
quantify over `execPhase` directly). -/
def runSearch (eng : SearchEngine) (files : List Entry) : List SEvent :=
  let cands := buildCandidates eng files
  let results := cands.map (candidateSearch eng files false)
  (execPhase eng.opts.max_matches cands.length results).events

/-- Construction followed by the run: an `InvalidPatternError`
(`ValueError` in the code) propagates synchronously and no event list is
ever produced. -/
def searchRun (compileR : RegexCompiler) (opts : Opts) (inc exc : List String)
    (files : List Entry) : Except String (List SEvent) :=
  match mkEngine opts inc exc compileR with
  | .error e => .error e
  | .ok eng => .ok (runSearch eng files)

/-- The match events of an event stream. -/
def matchEvents (evs : List SEvent) : List Match :=
  evs.filterMap fun ev => match ev with | .mtch m => some m | _ => none

/-- Event classifiers used to count events of one kind. -/
def isWarnEv : SEvent → Bool
  | .warn _ => true
  | _ => false

def isMatchEv : SEvent → Bool
  | .mtch _ => true
  | _ => false

/-! ### Atomic write (`utils.py` 19-41) -/

/-- The filesystem as a partial map from file name to text content. -/
def FS := String → Option String

/-- The operation that failed inside `atomic_write` after the temp file was
created (the re-raised "original error"). -/
inductive AWErr where
  | copyErr
  | renameErr
deriving DecidableEq

/-- Outcome of `atomic_write`: the re-raised error, if any, and the
resulting filesystem. -/
structure AWResult where
  err : Option AWErr
  fs : FS

/-- `str(e)` of the re-raised exception, for the worker's error message. -/
def awErrMsg : AWErr → String
  | .copyErr => "backup copy failed"
  | .renameErr => "rename failed"

/-- `atomic_write(path, content, make_backup)`.  `tempName` is the fresh
name `NamedTemporaryFile` picks; `copyOk` / `renameOk` inject failures of
`shutil.copy2` and `os.replace` (both are modelled as atomic: a failing
operation leaves the filesystem as it was).  On a failure after the temp
file exists, the temp file is removed and the error re-raised
(`utils.py` 38-41).  `path.with_suffix(path.suffix + ".bak")` appends
`.bak` after the existing suffix, i.e. `path ++ ".bak"` for the
single-suffix names modelled here. -/
def atomic_write (fs : FS) (path content : String) (make_backup : Bool)
    (tempName : String) (copyOk renameOk : Bool) : AWResult :=
  let fs1 : FS := fun n => if n = tempName then some content else fs n
  let bakName := path ++ ".bak"
  let doBackup := make_backup && (fs1 path).isSome
  if doBackup && !copyOk then
    { err := some .copyErr, fs := fun n => if n = tempName then none else fs1 n }
  else
    let fs2 : FS :=
      if doBackup then fun n => if n = bakName then fs1 path else fs1 n else fs1
    if renameOk then
      { err := none,
        fs := fun n =>
          if n = tempName then none
          else if n = path then fs2 tempName
          else fs2 n }
    else
      { err := some .renameErr, fs := fun n => if n = tempName then none else fs2 n }

/-! ### Replacement worker (`ui.py`, `ReplacementWorker.run`, lines 28-69) -/

/-- The worker's `find_opts` dict (`"case"` modelled as `case_sensitive`). -/
structure WOpts where
  text : String
  regex : Bool
  case_sensitive : Bool
  whole : Bool
deriving DecidableEq

/-- The events the worker puts on its progress queue. -/
inductive WEvent where
  | step (i : Nat) (name : String)
  | err (name : String) (msg : String)
  | wdone (count : Nat)
  | fatal (msg : String)
deriving DecidableEq

/-- The whole-word compiled regex the worker builds for `\b term \b`
(`ui.py` 35-36). -/
def wwRegex (term : String) (cs : Bool) : PyRegex :=
  ⟨wholeWordSearch term cs, wholeWordSub term cs⟩

/-- The new text for one file (`ui.py` 46-57): user/whole-word regex
substitution when `rx` was compiled, otherwise literal replacement
(direct when case-sensitive, escaped case-insensitive regex otherwise). -/
def computeNew (rx : Option PyRegex) (wop : WOpts) (replText old : String) : String :=
  match rx with
  | some r => r.sub replText old
  | none =>
    if wop.case_sensitive then pyReplace old wop.text replText
    else ciReplace old wop.text replText

/-- `read_file_lines` for a plain file joined back to one string: the
reader swallows every exception and returns `[]`, so an unreadable file
is seen as empty content (`utils.py` 44-72). -/
def readJoined (fs : FS) (path : String) : String := (fs path).getD ""

/-- The worker's per-file loop (`ui.py` 41-67): read, substitute, write when
changed, emit one `step` per processed file; an exception (here: a
failing `atomic_write`) is caught per file, reported as an `error` event
carrying the file name, and the loop continues.  `tempOf`, `copyOk`,
`renameOk` inject the write-failure behaviour per path.  Returns the
events (ending in `done count`), the final filesystem and the count. -/
def workerLoop (rx : Option PyRegex) (wop : WOpts) (replText : String)
    (backup : Bool) (tempOf : String → String) (copyOk renameOk : String → Bool) :
    List String → FS → Nat → Nat → List WEvent × FS × Nat
  | [], fs, _, count => ([.wdone count], fs, count)
  | p :: rest, fs, i, count =>
    let old := readJoined fs p
    let newT := computeNew rx wop replText old
    if newT ≠ old then
      let r := atomic_write fs p newT backup (tempOf p) (copyOk p) (renameOk p)
      match r.err with
      | some e =>
        let out := workerLoop rx wop replText backup tempOf copyOk renameOk rest r.fs (i + 1) count
        (.err p (awErrMsg e) :: out.1, out.2)
      | none =>
        let out := workerLoop rx wop replText backup tempOf copyOk renameOk rest r.fs (i + 1) (count + 1)
        (.step (i + 1) p :: out.1, out.2)
    else
      let out := workerLoop rx wop replText backup tempOf copyOk renameOk rest fs (i + 1) count
      (.step (i + 1) p :: out.1, out.2)

/-- `ReplacementWorker.run`: compile `rx` (a user-regex syntax error escapes
the per-file handler and yields a single `fatal` event), then run the
per-file loop. -/
def workerRun (compileR : RegexCompiler) (wop : WOpts) (replText : String)
    (backup : Bool) (tempOf : String → String) (copyOk renameOk : String → Bool)
    (files : List String) (fs : FS) : List WEvent × FS × Nat :=
  let rxe : Except String (Option PyRegex) :=
    if wop.regex then (compileR wop.text (!wop.case_sensitive)).map some
    else if wop.whole then .ok (some (wwRegex wop.text wop.case_sensitive))
    else .ok none
  match rxe with
  | .error e => ([.fatal e], fs, 0)
  | .ok rx => workerLoop rx wop replText backup tempOf copyOk renameOk files fs 0 0

/-- The file a per-file worker event is tagged with. -/
def weventName : WEvent → Option String
  | .step _ n => some n
  | .err n _ => some n
  | _ => none

def isErrEv : WEvent → Bool
  | .err _ _ => true
  | _ => false

/-! ### Shared helper lemmas -/

/-- The empty pattern occurs in every string. -/
theorem occursIn_nil (l : List Char) : occursIn [] l = true := by
  cases l <;> simp [occursIn, List.isPrefixOf]

/-- `filterMap` of an everywhere-`some` function keeps every element. -/
theorem length_filterMap_some {α β : Type} (g : α → β) (l : List α) :
    (l.filterMap fun a => some (g a)).length = l.length := by
  induction l with
  | nil => rfl
  | cons a as ih => simp [List.filterMap_cons, ih]

/-- Appending `".bak"` always changes a path. -/
theorem append_bak_ne (p : String) : p ++ ".bak" ≠ p := by
  intro h
  have h2 := congrArg (fun s : String => s.data.length) h
  simp at h2

/-- A regex compiler that always fails; the non-regex scenarios below never
invoke it. -/
def dummyCompiler : RegexCompiler := fun _ _ => .error "unused"

/-! ### Claim theorems -/

/-- C7: the literal matcher honours `caseSensitive` - `"World"` matches the
line `"world"` iff the search is case-insensitive - and the whole-word
matcher requires word boundaries: `"cat"` does not match `"concatenate"`
and matches the single line `"the cat sat"` exactly once (one `Match` is
produced for that line).  The matchers are exactly the compiled forms
`SearchEngine.__init__` builds for the literal and whole-word options. -/
theorem literal_case_and_whole_word :
    matcherSearch (.literal "World" false) "world" = true ∧
    matcherSearch (.literal "World" true) "world" = false ∧
    matcherSearch (.whole "cat" false) "concatenate" = false ∧
    matcherSearch (.whole "cat" false) "the cat sat" = true ∧
    matcherSearch (.whole "cat" true) "concatenate" = false ∧
    matcherSearch (.whole "cat" true) "the cat sat" = true ∧
    searchLines (.whole "cat" false) "doc.txt" false none false ["the cat sat"] =
      [⟨"doc.txt", 1, "the cat sat", false, none⟩] := by
  decide

/-- The replace-dialog filesystem of the round-trip scenario: one file whose
whole content is `"foo bar foo"`. -/
def fsC2 : FS := fun n => if n = "note.txt" then some "foo bar foo" else none

/-- C2, counterexample: replacing literal `"foo"` with `"baz"`
(case-sensitive, non-regex, non-whole-word) does produce
`"baz bar baz"`, but re-running the search for `"baz"` over the result
yields ONE `Match`, not two: `_search_content` produces one `Match` per
matching line (`core.py` 104-110), and both occurrences of `"baz"` lie
on the same single line. -/
theorem replace_roundtrip_two_matches_false :
    computeNew none ⟨"foo", false, true, false⟩ "baz" "foo bar foo" = "baz bar baz" ∧
    (searchLines (.literal "baz" true) "note.txt" false none false
        ["baz bar baz"]).length = 1 ∧
    ¬(searchLines (.literal "baz" true) "note.txt" false none false
        ["baz bar baz"]).length = 2 := by
  decide

/-- C2, amended: running the replacement worker with find `"foo"`, replace
`"baz"` (case-sensitive, non-regex, non-whole-word) over the file whose
content is `"foo bar foo"` rewrites it to `"baz bar baz"` and reports one
changed file; re-running the search for literal `"baz"` over the
resulting content yields exactly one `Match` (line 1; both occurrences
are on that one line). -/
theorem replace_roundtrip_one_match :
    (workerRun dummyCompiler ⟨"foo", false, true, false⟩ "baz" false
        (fun p => "#tmp#" ++ p) (fun _ => true) (fun _ => true)
        ["note.txt"] fsC2).2.1 "note.txt" = some "baz bar baz" ∧
    (workerRun dummyCompiler ⟨"foo", false, true, false⟩ "baz" false
        (fun p => "#tmp#" ++ p) (fun _ => true) (fun _ => true)
        ["note.txt"] fsC2).2.2 = 1 ∧
    searchLines (.literal "baz" true) "note.txt" false none false
        ["baz bar baz"] = [⟨"note.txt", 1, "baz bar baz", false, none⟩] := by
  refine ⟨?_, ?_, ?_⟩ <;> decide

/-- The zip archive of the C9 scenario: `a.zip` holds one member
`hello.txt` whose single line contains `"needle"`; the raw bytes of the
archive file itself begin with the standard zip local-file-header magic,
which contains NUL bytes, so the plain-file view is classified binary. -/
def entC9 : Entry :=
  ⟨"a.zip", ⟨200, true, [80, 75, 3, 4, 20, 0, 0, 0], []⟩,
    some ⟨[⟨"hello.txt", false, "a needle line\n"⟩]⟩⟩

/-- Search options of the C9 scenario (empty include/exclude glob sets
admit every name). -/
def optsC9 (arch : Bool) : Opts := ⟨"needle", true, false, false, false, arch, true, 5000⟩

/-- C9: with `searchArchives=true`, the zip member `hello.txt` containing a
`"needle"` line yields exactly one `Match`, with `is_archive = true` and
`member = some "hello.txt"`; with `searchArchives=false` the same
directory yields no matches at all. -/
theorem zip_archive_member_search :
    (searchRun dummyCompiler (optsC9 true) [] [] [entC9]).map matchEvents =
      .ok [⟨"a.zip", 1, "a needle line", true, some "hello.txt"⟩] ∧
    (searchRun dummyCompiler (optsC9 false) [] [] [entC9]).map matchEvents =
      .ok [] := by
  constructor <;> rfl

/-- C6: when `useRegex` is set and the pattern does not compile, the whole
search - construction followed by the run - fails synchronously with the
configuration error carrying the underlying syntax-error message
(`ValueError(f"Invalid regex: {e}")`, `core.py` 64-65): no event list is
produced, so no event is emitted and no file is opened. -/
theorem invalid_regex_synchronous (compileR : RegexCompiler) (opts : Opts)
    (inc exc : List String) (files : List Entry) (e : String)
    (hreg : opts.regex = true)
    (hc : compileR opts.text (!opts.case_sensitive) = .error e) :
    searchRun compileR opts inc exc files = .error ("Invalid regex: " ++ e) := by
  unfold searchRun mkEngine
  rw [hreg]
  simp [hc]

/-- Witness for C6 at a concrete invalid pattern. -/
theorem invalid_regex_synchronous_witness :
    searchRun (fun _ _ => .error "missing ), unterminated subpattern")
        ⟨"(", true, true, false, false, false, true, 5000⟩ [] [] [] =
      .error ("Invalid regex: " ++ "missing ), unterminated subpattern") :=
  invalid_regex_synchronous _ _ [] [] [] _ rfl rfl

/-- C8: a plain candidate that exceeds the 10 MiB size cap, or is
unreadable, or has a NUL byte among its first 1024 bytes, contributes no
matches whatever its decoded content - and `_search_content` returns the
empty list normally rather than raising. -/
theorem oversized_or_binary_no_matches (mt : Matcher) (path : String)
    (fd : FileData) (stop : Bool)
    (h : fd.size > MAX_FILE_SIZE_MB * 1024 * 1024 ∨ fd.readable = false ∨
         (fd.bytes.take 1024).contains 0 = true) :
    searchContentPlain mt path fd stop = [] := by
  unfold searchContentPlain
  split
  · rfl
  next hsize =>
    have hb : is_binary_file fd = true := by
      unfold is_binary_file
      rcases h with h | h | h
      · exact absurd h hsize
      · simp [h]
      · split
        · exact h
        · rfl
    simp [hb]

/-- Witness for C8: an oversized file, an unreadable file and a
NUL-carrying file, each with matching lines, yield no matches. -/
theorem oversized_or_binary_no_matches_witness :
    searchContentPlain (.literal "x" true) "big.txt"
        ⟨10 * 1024 * 1024 + 1, true, [120], ["x"]⟩ false = [] ∧
    searchContentPlain (.literal "x" true) "locked.txt"
        ⟨3, false, [120], ["x"]⟩ false = [] ∧
    searchContentPlain (.literal "x" true) "blob.bin"
        ⟨3, true, [120, 0, 120], ["x"]⟩ false = [] :=
  ⟨oversized_or_binary_no_matches _ _ _ _ (Or.inl (by decide)),
   oversized_or_binary_no_matches _ _ _ _ (Or.inr (Or.inl rfl)),
   oversized_or_binary_no_matches _ _ _ _ (Or.inr (Or.inr (by decide)))⟩

/-- C10: with an empty pattern text and `useRegex`/`wholeWord` unset, the
compiled matcher (`re.escape("")`) matches every line, and a scanned text
candidate (readable, within the size cap, not binary, no cancellation)
produces exactly one `Match` per line. -/
theorem empty_pattern_matches_every_line (cs : Bool) (path : String)
    (fd : FileData) (hr : fd.readable = true)
    (hsz : fd.size ≤ MAX_FILE_SIZE_MB * 1024 * 1024)
    (hnb : (fd.bytes.take 1024).contains 0 = false) :
    (∀ line : String, matcherSearch (.literal "" cs) line = true) ∧
    (searchContentPlain (.literal "" cs) path fd false).length = fd.lines.length := by
  have hmatch : ∀ line : String, matcherSearch (.literal "" cs) line = true := by
    intro line
    unfold matcherSearch literalSearch
    cases cs <;> simp [lowerL, occursIn_nil]
  refine ⟨hmatch, ?_⟩
  have hb : is_binary_file fd = false := by
    unfold is_binary_file
    rw [hr, if_pos rfl]
    exact hnb
  unfold searchContentPlain
  rw [if_neg (by omega), hb, if_neg Bool.false_ne_true]
  unfold searchLines
  rw [if_neg Bool.false_ne_true]
  rw [show (fun p : Nat × String =>
        if matcherSearch (Matcher.literal "" cs) p.2 then
          some (⟨path, p.1 + 1, previewOf p.2, false, none⟩ : Match)
        else none) =
      (fun p : Nat × String =>
        some (⟨path, p.1 + 1, previewOf p.2, false, none⟩ : Match)) from
    funext fun p => by rw [hmatch p.2]; rfl]
  rw [length_filterMap_some]
  exact List.enum_length

/-- Witness for C10: a two-line readable text file yields two matches under
the empty pattern. -/
theorem empty_pattern_matches_every_line_witness :
    (∀ line : String, matcherSearch (.literal "" true) line = true) ∧
    (searchContentPlain (.literal "" true) "notes.txt"
        ⟨9, true, [104, 105], ["hi\n", "there"]⟩ false).length =
      (["hi\n", "there"] : List String).length :=
  empty_pattern_matches_every_line true "notes.txt"
    ⟨9, true, [104, 105], ["hi\n", "there"]⟩ rfl (by decide) (by decide)

/-- C1: for every target file and every failure raised after the temporary
file exists but before the rename completes - a failing backup copy or a
failing rename - `atomic_write` removes the temporary file, re-raises the
original error (the copy error when the backup copy failed, otherwise the
rename error), and leaves the target's content byte-for-byte unchanged.
`tempName ≠ path` holds because `NamedTemporaryFile` picks a fresh name. -/
theorem atomic_write_failure_safe (fs : FS) (path content : String)
    (make_backup : Bool) (tempName : String) (copyOk renameOk : Bool)
    (ht : tempName ≠ path)
    (hfail : (make_backup = true ∧ (fs path).isSome = true ∧ copyOk = false) ∨
             renameOk = false) :
    (atomic_write fs path content make_backup tempName copyOk renameOk).err =
      some (if make_backup = true ∧ (fs path).isSome = true ∧ copyOk = false
            then .copyErr else .renameErr) ∧
    (atomic_write fs path content make_backup tempName copyOk renameOk).fs tempName
      = none ∧
    (atomic_write fs path content make_backup tempName copyOk renameOk).fs path
      = fs path := by
  have hbak := append_bak_ne path
  have hpt : ¬path = tempName := fun h => ht h.symm
  unfold atomic_write
  by_cases hcopy : make_backup = true ∧ (fs path).isSome = true ∧ copyOk = false
  · obtain ⟨hmb, hsome, hco⟩ := hcopy
    rw [if_pos (by simp [hmb, hco, hpt, hsome])]
    refine ⟨by simp [hmb, hsome, hco], by simp, by simp [hpt]⟩
  · have hro : renameOk = false := by tauto
    have hcond : ¬(((make_backup &&
        (if path = tempName then some content else fs path).isSome) && !copyOk) = true) := by
      simp only [if_neg hpt, Bool.and_eq_true, Bool.not_eq_true']
      tauto
    rw [if_neg hcond, hro, if_neg Bool.false_ne_true]
    refine ⟨by simp [hcopy], by simp, ?_⟩
    simp only [if_neg hpt]
    split
    · simp [if_neg hbak.symm, if_neg hpt]
    · simp [if_neg hpt]

/-- Witness for C1: both failure modes on a concrete one-file system:
the error is re-raised, the temp file is gone and the target still holds
`"old"`. -/
theorem atomic_write_failure_safe_witness :
    ((atomic_write (fun n => if n = "t.txt" then some "old" else none)
        "t.txt" "new" true "tmp0" false true).err = some .copyErr ∧
     (atomic_write (fun n => if n = "t.txt" then some "old" else none)
        "t.txt" "new" true "tmp0" false true).fs "tmp0" = none ∧
     (atomic_write (fun n => if n = "t.txt" then some "old" else none)
        "t.txt" "new" true "tmp0" false true).fs "t.txt" =
       (fun n => if n = "t.txt" then some "old" else none) "t.txt") ∧
    ((atomic_write (fun n => if n = "t.txt" then some "old" else none)
        "t.txt" "new" true "tmp0" true false).err = some .renameErr ∧
     (atomic_write (fun n => if n = "t.txt" then some "old" else none)
        "t.txt" "new" true "tmp0" true false).fs "tmp0" = none ∧
     (atomic_write (fun n => if n = "t.txt" then some "old" else none)
        "t.txt" "new" true "tmp0" true false).fs "t.txt" =
       (fun n => if n = "t.txt" then some "old" else none) "t.txt") := by
  constructor
  · have h := atomic_write_failure_safe
      (fun n => if n = "t.txt" then some "old" else none) "t.txt" "new" true
      "tmp0" false true (by decide) (Or.inl ⟨rfl, by decide, rfl⟩)
    simpa using h
  · have h := atomic_write_failure_safe
      (fun n => if n = "t.txt" then some "old" else none) "t.txt" "new" true
      "tmp0" true false (by decide) (Or.inr rfl)
    simpa using h

/-- One completion-loop step either leaves `matched_found` unchanged (break,
warn, failed/empty task) or, only when the counter was still strictly
below the ceiling, adds the completed task's full match count. -/
theorem execStep_found (maxm : Nat) (s : ExecSt) (res : List Match) :
    (execStep maxm s res).found = s.found ∨
    (s.found < maxm ∧ (execStep maxm s res).found = s.found + res.length) := by
  unfold execStep
  split_ifs with h1 h2 h3 <;>
    simp_all [apply_ite ExecSt.found]

/-- Every state reachable from `s0` keeps `s0`'s counter or is bounded by
`maxm - 1` plus the length of some completed task's result. -/
theorem execStates_found_bound (maxm : Nat) :
    ∀ (results : List (List Match)) (s0 s : ExecSt),
      s ∈ execStates maxm s0 results →
      s.found = s0.found ∨ ∃ res ∈ results, s.found ≤ maxm - 1 + res.length := by
  intro results
  induction results with
  | nil =>
    intro s0 s hs
    simp only [execStates, List.mem_singleton] at hs
    exact Or.inl (hs ▸ rfl)
  | cons r rs ih =>
    intro s0 s hs
    simp only [execStates, List.mem_cons] at hs
    rcases hs with rfl | hs
    · exact Or.inl rfl
    · rcases ih (execStep maxm s0 r) s hs with h | ⟨res, hres, hle⟩
      · rcases execStep_found maxm s0 r with h0 | ⟨hlt, h0⟩
        · exact Or.inl (h.trans h0)
        · refine Or.inr ⟨r, List.mem_cons_self _ _, ?_⟩
          rw [h, h0]
          omega
      · exact Or.inr ⟨res, List.mem_cons_of_mem _ hres, hle⟩

/-- C3: throughout the execution phase, `matches_found` never exceeds
`maxMatches` by more than the match count of the single task that crossed
the threshold: every reachable state of the completion loop is at most
`maxMatches`, or exceeds it by strictly less than the size of one
completed task's result (the ceiling is only consulted between task
completions, so one whole task's matches are added at a time -
`execStep` adds `res.length` in one step or nothing). -/
theorem matches_found_ceiling_excess (maxm total : Nat)
    (results : List (List Match)) (s : ExecSt)
    (hs : s ∈ execStates maxm (initExecSt total) results) :
    s.found ≤ maxm ∨ ∃ res ∈ results, s.found ≤ maxm - 1 + res.length := by
  rcases execStates_found_bound maxm results (initExecSt total) s hs with h | h
  · exact Or.inl (by rw [h]; exact Nat.zero_le _)
  · exact Or.inr h

/-- Witness for C3 on a concrete two-task run with `maxMatches = 1`. -/
theorem matches_found_ceiling_excess_witness :
    (execStep 1 (initExecSt 2) [⟨"a.txt", 1, "x", false, none⟩,
        ⟨"a.txt", 2, "y", false, none⟩]).found ≤ 1 ∨
    ∃ res ∈ [[(⟨"a.txt", 1, "x", false, none⟩ : Match),
        ⟨"a.txt", 2, "y", false, none⟩], [(⟨"b.txt", 1, "z", false, none⟩ : Match)]],
      (execStep 1 (initExecSt 2) [⟨"a.txt", 1, "x", false, none⟩,
          ⟨"a.txt", 2, "y", false, none⟩]).found ≤ 1 - 1 + res.length :=
  matches_found_ceiling_excess 1 2 _ _ (by
    simp only [execStates, List.mem_cons]
    tauto)

/-- The matches of the first-completed task in the C4 counterexample: one
file with two matching lines. -/
def resC4a : List Match := [⟨"a.txt", 1, "x", false, none⟩, ⟨"a.txt", 2, "y", false, none⟩]

/-- The second task's single match in the C4 counterexample. -/
def resC4b : List Match := [⟨"b.txt", 1, "z", false, none⟩]

/-- C4, counterexample: with `maxMatches = 1` and two tasks that each have
at least one matching line, the run emits exactly one warn event but NOT
exactly one match event: when the first-completed task carries two
matching lines, two match events are emitted (the ceiling is only
checked between completions, so the whole first task is flushed). -/
theorem match_ceiling_single_match_false :
    (execPhase 1 2 [resC4a, resC4b]).events.countP isWarnEv = 1 ∧
    (execPhase 1 2 [resC4a, resC4b]).events.countP isMatchEv = 2 ∧
    ¬(execPhase 1 2 [resC4a, resC4b]).events.countP isMatchEv = 1 := by
  refine ⟨?_, ?_, ?_⟩ <;> decide

/-- C4, amended: with `maxMatches = 1` and two candidate tasks each
producing at least one match, whichever of the two completes first,
exactly one warn event is emitted, the match events are exactly the
matches of the first-completed task (at least one), and nothing from the
second task is consumed or emitted after cancellation is signalled: the
event stream is the initial progress event, the first task's matches,
the warning, and the terminal done event. -/
theorem match_ceiling_events (ra rb : List Match) (ha : ra ≠ []) (_hb : rb ≠ []) :
    (execPhase 1 2 [ra, rb]).events =
      .progress ⟨0, 2, 0⟩ ::
        (ra.map .mtch ++ [.warn (warnMsg 1), .done ⟨1, 2, ra.length⟩]) := by
  obtain ⟨a, as, rfl⟩ := List.exists_cons_of_ne_nil ha
  simp [execPhase, execStep, initExecSt, Nat.succ_le_succ (Nat.zero_le _)]

/-- Witness for C4 with two one-match tasks: one match event is emitted. -/
theorem match_ceiling_events_witness :
    (execPhase 1 2 [[(⟨"a.txt", 1, "x", false, none⟩ : Match)],
        [(⟨"b.txt", 1, "z", false, none⟩ : Match)]]).events =
      .progress ⟨0, 2, 0⟩ ::
        ([(⟨"a.txt", 1, "x", false, none⟩ : Match)].map .mtch ++
          [.warn (warnMsg 1), .done ⟨1, 2, 1⟩]) :=
  match_ceiling_events _ _ (by decide) (by decide)

/-- The worker's per-file loop emits, for every file of the job in order,
exactly one event tagged with that file - a `step` on success or
no-change, an `error` on a raising write - whatever happens to the
individual files: processing always continues to the next file. -/
theorem workerLoop_files_covered (rx : Option PyRegex) (wop : WOpts)
    (replText : String) (backup : Bool) (tempOf : String → String)
    (copyOk renameOk : String → Bool) :
    ∀ (files : List String) (fs : FS) (i count : Nat),
      ((workerLoop rx wop replText backup tempOf copyOk renameOk
          files fs i count).1).filterMap weventName = files := by
  intro files
  induction files with
  | nil => intro fs i count; rfl
  | cons p rest ih =>
    intro fs i count
    unfold workerLoop
    dsimp only
    split
    · split
      · simp [List.filterMap_cons, weventName, ih]
      · simp [List.filterMap_cons, weventName, ih]
    · simp [List.filterMap_cons, weventName, ih]

/-- The job of the C5 counterexample: one unreadable file. -/
def fsC5 : FS := fun _ => none

/-- The find options of the C5 scenarios: literal case-sensitive `"foo"`. -/
def wopC5 : WOpts := ⟨"foo", false, true, false⟩

/-- C5, counterexample: a read failure during a replace job is NOT reported
as an error event.  `read_file_lines` swallows every exception and
returns `[]` (`utils.py` 70-71), so the worker sees an unreadable file
as empty content, computes an unchanged text, and emits an ordinary
`step` event: the job over the single unreadable file `u.txt` produces
`[step 1 "u.txt", done 0]` and zero error events, contradicting the
claim that every read failure is reported as an error event tagged
with the file. -/
theorem read_failure_no_error_event :
    (workerRun dummyCompiler wopC5 "bar" true (fun p => "#tmp#" ++ p)
        (fun _ => true) (fun _ => true) ["u.txt"] fsC5).1 =
      [.step 1 "u.txt", .wdone 0] ∧
    (workerRun dummyCompiler wopC5 "bar" true (fun p => "#tmp#" ++ p)
        (fun _ => true) (fun _ => true) ["u.txt"] fsC5).1.countP isErrEv = 0 := by
  refine ⟨?_, ?_⟩ <;> decide

/-- C5, amended: every exception actually raised while processing one file
of a replace job - in this model, a failing `atomic_write` - is caught by
the per-file handler, reported as an error event tagged with that file,
and processing continues with every remaining file of the job (each
remaining file still yields its own per-file event, in order).  Read
failures and encoding issues never raise: the reader returns empty
content / replacement-decoded text, so such files produce a `step`
event, not an `error` event. -/
theorem worker_write_error_reported (rx : Option PyRegex) (wop : WOpts)
    (replText : String) (backup : Bool) (tempOf : String → String)
    (copyOk renameOk : String → Bool) (p : String) (rest : List String)
    (fs : FS) (i count : Nat) (e : AWErr)
    (hch : computeNew rx wop replText (readJoined fs p) ≠ readJoined fs p)
    (hfail : (atomic_write fs p (computeNew rx wop replText (readJoined fs p))
        backup (tempOf p) (copyOk p) (renameOk p)).err = some e) :
    ∃ evs : List WEvent,
      (workerLoop rx wop replText backup tempOf copyOk renameOk
          (p :: rest) fs i count).1 = .err p (awErrMsg e) :: evs ∧
      evs.filterMap weventName = rest := by
  unfold workerLoop
  dsimp only
  rw [if_pos hch, hfail]
  exact ⟨_, rfl, workerLoop_files_covered rx wop replText backup tempOf
    copyOk renameOk rest _ (i + 1) count⟩

/-- The filesystem of the C5 witness: `a.txt` holds `"foo x foo"`; the
rename of every atomic write is made to fail. -/
def fsC5w : FS := fun n => if n = "a.txt" then some "foo x foo" else none

/-- Witness for C5: with the rename failing on `a.txt`, the error event for
`a.txt` is emitted first and the remaining file `b.txt` is still
processed. -/
theorem worker_write_error_reported_witness :
    ∃ evs : List WEvent,
      (workerLoop none wopC5 "bar" true (fun p => "#tmp#" ++ p)
          (fun _ => true) (fun _ => false) ["a.txt", "b.txt"] fsC5w 0 0).1 =
        .err "a.txt" (awErrMsg .renameErr) :: evs ∧
      evs.filterMap weventName = ["b.txt"] :=
  worker_write_error_reported none wopC5 "bar" true (fun p => "#tmp#" ++ p)
    (fun _ => true) (fun _ => false) "a.txt" ["b.txt"] fsC5w 0 0 .renameErr
    (by decide) (by decide)

end PySearch
